import Mathlib

set_option maxRecDepth 8000
set_option linter.unusedVariables false

namespace CtiStix

/-!
Shallow embedding of the opinion-sdo use cases: judge_intel.py (authoring an
Opinion for an Indicator) and read_intel.py (reviewing the Opinions recorded
against an Indicator).  The STIX objects are modelled with exactly the fields
the two scripts read or write.
-/

/-- STIX Identity object as used by the scripts: identifier, display name,
identity class and contact information. -/
structure Identity where
  id : String
  name : String
  identity_class : String
  contact_information : String
deriving DecidableEq, Repr

/-- STIX Indicator object: a read-only record with identifier and name. -/
structure Indicator where
  id : String
  name : String
deriving DecidableEq, Repr

/-- Creation timestamp with the six components read by strftime in
read_intel.py; Python datetime objects compare lexicographically on these
components. -/
structure Timestamp where
  year : Nat
  month : Nat
  day : Nat
  hour : Nat
  minute : Nat
  second : Nat
deriving DecidableEq, Repr

/-- STIX Opinion object.  The created_by_ref field is optional in the stix2
library and stays absent (none) when the constructor is not given it. -/
structure Opinion where
  id : String
  object_refs : List String
  opinion : String
  explanation : String
  created : Timestamp
  created_by_ref : Option String
deriving DecidableEq, Repr

/-- A typed bundle object.  Objects of other types may occur in a bundle and
are ignored by both scripts; they are modelled by their type string and id. -/
inductive SDO where
  | identity : Identity → SDO
  | indicator : Indicator → SDO
  | opinion : Opinion → SDO
  | other : String → String → SDO
deriving DecidableEq, Repr

/-- The type discriminator string of a bundle object, as in obj.type. -/
def SDO.typeName : SDO → String
  | .identity _ => "identity"
  | .indicator _ => "indicator"
  | .opinion _ => "opinion"
  | .other t _ => t

/-- The identifier of a bundle object. -/
def SDO.objId : SDO → String
  | .identity i => i.id
  | .indicator i => i.id
  | .opinion o => o.id
  | .other _ i => i

/-- Projection used for the filter type = identity. -/
def SDO.asIdentity : SDO → Option Identity
  | .identity i => some i
  | _ => none

/-- Projection used for the filter type = indicator. -/
def SDO.asIndicator : SDO → Option Indicator
  | .indicator i => some i
  | _ => none

/-- Projection used for the filter type = opinion. -/
def SDO.asOpinion : SDO → Option Opinion
  | .opinion o => some o
  | _ => none

/-- A STIX bundle: identifier plus the ordered object collection.  The
collection is only ever mutated by append in judge_intel.py. -/
structure Bundle where
  id : String
  objects : List SDO
deriving DecidableEq, Repr

/-- Object identifiers are unique within the bundle (the data-model
invariant). -/
def Bundle.uniqueIds (b : Bundle) : Prop :=
  (b.objects.map SDO.objId).Nodup

instance (b : Bundle) : Decidable b.uniqueIds := by
  unfold Bundle.uniqueIds; infer_instance

/-!
Review-side query layer (read_intel.py lines 88-91).  A MemoryStore built
from the bundle keeps the objects in insertion order (a Python dict keyed by
id), so under the unique-id invariant query([type = opinion,
object_refs contains I.id]) is the in-order filter below.
-/

/-- The store query of IndicatorViewerForm.set_indicator before sorting:
all opinion objects whose object_refs contain the chosen indicator id, in
bundle insertion order. -/
def queryOpinions (b : Bundle) (ind : Indicator) : List Opinion :=
  (b.objects.filterMap SDO.asOpinion).filter
    (fun op => op.object_refs.contains ind.id)

/-- MemoryStore.creator_of: follow created_by_ref when present, returning the
identity stored under that id; none when the field is absent or dangling. -/
def creator_of (b : Bundle) (op : Opinion) : Option Identity :=
  match op.created_by_ref with
  | none => none
  | some ref => (b.objects.filterMap SDO.asIdentity).find? (fun i => i.id == ref)

/-!
Ordering on timestamps: lexicographic on the six components, as for Python
datetime values.
-/

/-- The component list of a timestamp, most significant first. -/
def Timestamp.toList (t : Timestamp) : List Nat :=
  [t.year, t.month, t.day, t.hour, t.minute, t.second]

/-- Lexicographic less-or-equal on lists of naturals. -/
def lexLeN : List Nat → List Nat → Bool
  | [], _ => true
  | _ :: _, [] => false
  | a :: as, b :: bs => if a < b then true else if b < a then false else lexLeN as bs

/-- Less-or-equal on timestamps (Python datetime order). -/
def Timestamp.leb (a b : Timestamp) : Bool :=
  lexLeN a.toList b.toList

/-- Strictly-less on timestamps. -/
def Timestamp.ltb (a b : Timestamp) : Bool :=
  !Timestamp.leb b a

theorem lexLeN_refl : ∀ as : List Nat, lexLeN as as = true := by
  intro as
  induction as with
  | nil => rfl
  | cons a as ih => simp [lexLeN, ih]

theorem lexLeN_total : ∀ as bs : List Nat, lexLeN as bs = true ∨ lexLeN bs as = true := by
  intro as
  induction as with
  | nil => intro bs; left; rfl
  | cons a as ih =>
    intro bs
    cases bs with
    | nil => right; rfl
    | cons b bs =>
      by_cases hab : a < b
      · left; simp [lexLeN, hab]
      · by_cases hba : b < a
        · right; simp [lexLeN, hba, Nat.lt_asymm hba]
        · have hbeq : a = b := Nat.le_antisymm (Nat.le_of_not_lt hba) (Nat.le_of_not_lt hab)
          subst hbeq
          rcases ih bs with h | h
          · left; simp [lexLeN, h]
          · right; simp [lexLeN, h]

theorem lexLeN_trans :
    ∀ as bs cs : List Nat,
      lexLeN as bs = true → lexLeN bs cs = true → lexLeN as cs = true := by
  intro as
  induction as with
  | nil => intro bs cs _ _; rfl
  | cons a as ih =>
    intro bs cs hab hbc
    cases bs with
    | nil => simp [lexLeN] at hab
    | cons b bs =>
      cases cs with
      | nil => simp [lexLeN] at hbc
      | cons c cs =>
        simp only [lexLeN] at hab hbc ⊢
        by_cases h1 : a < b
        · -- a < b and b ≤ c gives a < c
          by_cases h2 : b < c
          · simp [Nat.lt_trans h1 h2]
          · by_cases h3 : c < b
            · simp [h2, h3] at hbc
            · have : b = c := Nat.le_antisymm (Nat.le_of_not_lt h3) (Nat.le_of_not_lt h2)
              subst this
              simp [h1]
        · by_cases h1' : b < a
          · simp [h1, h1'] at hab
          · have hab' : a = b := Nat.le_antisymm (Nat.le_of_not_lt h1') (Nat.le_of_not_lt h1)
            subst hab'
            simp only [h1, if_neg (Nat.lt_irrefl a), if_neg] at hab
            by_cases h2 : a < c
            · simp [h2]
            · by_cases h3 : c < a
              · simp [h2, h3] at hbc
              · have : a = c := Nat.le_antisymm (Nat.le_of_not_lt h3) (Nat.le_of_not_lt h2)
                subst this
                simp only [if_neg (Nat.lt_irrefl a)] at hab hbc ⊢
                exact ih _ _ hab hbc

theorem Timestamp.leb_refl (t : Timestamp) : Timestamp.leb t t = true :=
  lexLeN_refl t.toList

theorem Timestamp.leb_total (a b : Timestamp) :
    Timestamp.leb a b = true ∨ Timestamp.leb b a = true :=
  lexLeN_total a.toList b.toList

theorem Timestamp.leb_trans {a b c : Timestamp}
    (h1 : Timestamp.leb a b = true) (h2 : Timestamp.leb b c = true) :
    Timestamp.leb a c = true :=
  lexLeN_trans a.toList b.toList c.toList h1 h2

theorem Timestamp.ltb_iff (a b : Timestamp) :
    Timestamp.ltb a b = true ↔ Timestamp.leb b a = false := by
  simp [Timestamp.ltb]

/-!
The sort in read_intel.py line 92: opinions.sort(key = created, reverse=True).
list.sort in Python is stable also with reverse=True, so the result is
non-increasing in the created key and ties keep the pre-sort (bundle) order.
The stable descending sort is modelled by insertion sort where an element
overtakes exactly the elements with strictly smaller key.
-/

/-- Insert x into a descending-sorted list, after every element whose key is
greater or equal (so an earlier element stays ahead of a later one with an
equal key). -/
def insertDesc (x : Opinion) : List Opinion → List Opinion
  | [] => [x]
  | y :: ys =>
    if Timestamp.ltb x.created y.created then y :: insertDesc x ys
    else x :: y :: ys

/-- Stable sort, descending by the created timestamp. -/
def sortDesc : List Opinion → List Opinion
  | [] => []
  | x :: xs => insertDesc x (sortDesc xs)

theorem insertDesc_perm (x : Opinion) (l : List Opinion) :
    (insertDesc x l).Perm (x :: l) := by
  induction l with
  | nil => exact List.Perm.refl _
  | cons y ys ih =>
    simp only [insertDesc]
    by_cases h : Timestamp.ltb x.created y.created = true
    · simp only [h, if_true]
      exact ((ih.cons y).trans (List.Perm.swap x y ys))
    · simp only [h, if_false]
      exact List.Perm.refl _

theorem sortDesc_perm (l : List Opinion) : (sortDesc l).Perm l := by
  induction l with
  | nil => exact List.Perm.refl _
  | cons x xs ih =>
    exact (insertDesc_perm x (sortDesc xs)).trans (ih.cons x)

theorem mem_insertDesc {x z : Opinion} {l : List Opinion} :
    z ∈ insertDesc x l ↔ z = x ∨ z ∈ l := by
  have := (insertDesc_perm x l).mem_iff (a := z)
  simpa using this

/-- The descending order relation between list positions. -/
def descRel (a b : Opinion) : Prop := Timestamp.leb b.created a.created = true

theorem insertDesc_pairwise {x : Opinion} {l : List Opinion}
    (h : l.Pairwise descRel) : (insertDesc x l).Pairwise descRel := by
  induction l with
  | nil => simp [insertDesc, descRel]
  | cons y ys ih =>
    rcases List.pairwise_cons.mp h with ⟨hy, hys⟩
    by_cases hx : Timestamp.ltb x.created y.created = true
    · have hyx : Timestamp.leb x.created y.created = true := by
        rcases Timestamp.leb_total x.created y.created with h' | h'
        · exact h'
        · rw [Timestamp.ltb_iff] at hx
          rw [hx] at h'
          exact absurd h' (by simp)
      simp only [insertDesc, hx, if_true]
      refine List.pairwise_cons.mpr ⟨?_, ih hys⟩
      intro z hz
      rcases mem_insertDesc.mp hz with rfl | hz
      · exact hyx
      · exact hy z hz
    · have hge : Timestamp.leb y.created x.created = true := by
        rw [Timestamp.ltb_iff] at hx
        cases hxy : Timestamp.leb y.created x.created with
        | true => rfl
        | false => exact absurd hxy hx
      simp only [insertDesc, hx, if_false]
      refine List.pairwise_cons.mpr ⟨?_, h⟩
      intro z hz
      rcases List.mem_cons.mp hz with rfl | hz
      · exact hge
      · exact Timestamp.leb_trans (hy z hz) hge

theorem sortDesc_pairwise (l : List Opinion) : (sortDesc l).Pairwise descRel := by
  induction l with
  | nil => simp [sortDesc]
  | cons x xs ih => exact insertDesc_pairwise ih

theorem filter_insertDesc (t : Timestamp) (x : Opinion) (l : List Opinion) :
    (insertDesc x l).filter (fun o => decide (o.created = t)) =
      (x :: l).filter (fun o => decide (o.created = t)) := by
  induction l with
  | nil => rfl
  | cons y ys ih =>
    simp only [insertDesc]
    by_cases hx : Timestamp.ltb x.created y.created = true
    · rw [if_pos hx]
      have hne : ¬(x.created = t ∧ y.created = t) := by
        rintro ⟨h1, h2⟩
        rw [Timestamp.ltb_iff, h1, h2, Timestamp.leb_refl] at hx
        cases hx
      by_cases hyt : y.created = t
      · have hxt : x.created ≠ t := fun h => hne ⟨h, hyt⟩
        have h1 : (y :: insertDesc x ys).filter (fun o => decide (o.created = t))
            = y :: (insertDesc x ys).filter (fun o => decide (o.created = t)) := by
          simp [List.filter_cons, hyt]
        rw [h1, ih]
        simp [List.filter_cons, hyt, hxt]
      · have h1 : (y :: insertDesc x ys).filter (fun o => decide (o.created = t))
            = (insertDesc x ys).filter (fun o => decide (o.created = t)) := by
          simp [List.filter_cons, hyt]
        rw [h1, ih]
        simp [List.filter_cons, hyt]
    · rw [if_neg hx]

theorem sortDesc_filter (t : Timestamp) (l : List Opinion) :
    (sortDesc l).filter (fun o => decide (o.created = t)) =
      l.filter (fun o => decide (o.created = t)) := by
  induction l with
  | nil => rfl
  | cons x xs ih =>
    calc (insertDesc x (sortDesc xs)).filter (fun o => decide (o.created = t))
        = (x :: sortDesc xs).filter (fun o => decide (o.created = t)) :=
          filter_insertDesc t x (sortDesc xs)
      _ = (x :: xs).filter (fun o => decide (o.created = t)) := by
          by_cases hx : x.created = t <;>
            simp [List.filter_cons, hx, ih]

/-- The full review query of set_indicator: filter then stable descending
sort by creation timestamp. -/
def opinionsFor (b : Bundle) (ind : Indicator) : List Opinion :=
  sortDesc (queryOpinions b ind)

theorem asOpinion_eq_some {s : SDO} {o : Opinion} :
    SDO.asOpinion s = some o ↔ s = SDO.opinion o := by
  cases s <;> simp [SDO.asOpinion]

/-!
Python string primitives used by the two scripts: str.title, str.splitlines,
separator join, and the zero-padded decimal fields of strftime.
-/

/-- The decimal digit characters. -/
def digitChar (n : Nat) : Char :=
  ['0', '1', '2', '3', '4', '5', '6', '7', '8', '9'].getD n '*'

/-- Decimal digits of a natural number, most significant first. -/
def natDigits (n : Nat) : List Char :=
  if h : n < 10 then [digitChar n]
  else natDigits (n / 10) ++ [digitChar (n % 10)]
decreasing_by
  exact Nat.div_lt_self (Nat.lt_of_lt_of_le (by decide) (Nat.le_of_not_lt h)) (by decide)

/-- Decimal rendering of a natural number. -/
def natToString (n : Nat) : String := ⟨natDigits n⟩

/-- Zero-padded two-digit field, as produced by strftime for the month, day,
hour, minute and second fields. -/
def pad2 (n : Nat) : String :=
  if n < 10 then "0" ++ natToString n else natToString n

/-- The zeros prepended by the four-digit year field. -/
def padPrefix4 (n : Nat) : String :=
  if n < 10 then "000" else if n < 100 then "00" else if n < 1000 then "0" else ""

/-- Zero-padded four-digit year field. -/
def pad4 (n : Nat) : String :=
  padPrefix4 n ++ natToString n

/-- created.strftime with format %Y-%m-%d %H:%M:%S (read_intel.py line 99). -/
def strftime (t : Timestamp) : String :=
  pad4 t.year ++ "-" ++ pad2 t.month ++ "-" ++ pad2 t.day ++ " "
    ++ pad2 t.hour ++ ":" ++ pad2 t.minute ++ ":" ++ pad2 t.second

/-- Python str.replace for a single-character pattern and single-character
replacement (the only use in the scripts is replace of dash by space), which
replaces every occurrence. -/
def replaceChar (a b : Char) (s : String) : String :=
  ⟨s.data.map (fun c => if c = a then b else c)⟩

/-- Worker for str.title: an alphabetic character is uppercased after a
non-alphabetic character (or at the start) and lowercased after an
alphabetic one; other characters pass through. -/
def pyTitleGo : Bool → List Char → List Char
  | _, [] => []
  | prevAlpha, c :: cs =>
    if c.isAlpha then
      (if prevAlpha then c.toLower else c.toUpper) :: pyTitleGo true cs
    else
      c :: pyTitleGo false cs

/-- Python str.title (over the ASCII letters the scripts use). -/
def pyTitle (s : String) : String := ⟨pyTitleGo false s.data⟩

/-- Python str.splitlines over the newline character: pieces between
newlines, with no extra empty piece after a terminating newline and no piece
at all for the empty string. -/
def splitlinesL : List Char → List (List Char)
  | [] => []
  | c :: rest =>
    if c = '\n' then [] :: splitlinesL rest
    else
      match splitlinesL rest with
      | [] => [[c]]
      | l :: ls => (c :: l) :: ls

/-- str.splitlines on strings. -/
def pySplitlines (s : String) : List String :=
  (splitlinesL s.data).map (fun l => ⟨l⟩)

/-- Separator join on character lists. -/
def joinNLc : List (List Char) → List Char
  | [] => []
  | [x] => x
  | x :: xs => x ++ '\n' :: joinNLc xs

/-- Python newline.join on strings. -/
def pyJoinNL (ls : List String) : String :=
  ⟨joinNLc (ls.map String.data)⟩

/-!
Authoring-side workflow (judge_intel.py).
-/

/-- The form ids registered by IndicatorEvaluationApplication.onStart. -/
def registeredFormIds : List String :=
  ["MAIN", "NEW_IDENTITY", "INDICATORS", "EVALUATION"]

/-- NPSAppManaged form lookup: switching to a form id resolves it against the
registered forms; an unregistered id has no form (a KeyError in Python). -/
def getForm (formId : String) : Option String :=
  if formId ∈ registeredFormIds then some formId else none

/-- The form id passed to switchForm by IdentityEntryForm.on_cancel
(judge_intel.py line 110). -/
def identityEntryCancelTarget : String := "IDENTITIES"

/-- The form id passed to switchForm by IndicatorSelectionForm.on_cancel
(judge_intel.py line 142). -/
def indicatorSelectionCancelTarget : String := "IDENTITIES"

/-- The form id passed to switchForm by IndicatorEvaluationForm.on_cancel
(judge_intel.py line 201). -/
def evaluationCancelTarget : String := "MAIN"

/-- The mutable per-run state of IndicatorEvaluationApplication: the bundle
and the identity resolved for this session. -/
structure App where
  bundle : Bundle
  identity : Option Identity
deriving DecidableEq, Repr

/-- IndicatorEvaluationApplication.set_identity: append the identity to the
object collection of the bundle unconditionally and remember it. -/
def App.set_identity (app : App) (i : Identity) : App :=
  { bundle := { app.bundle with objects := app.bundle.objects ++ [SDO.identity i] },
    identity := some i }

/-- IndicatorEvaluationApplication.on_identity_selected: record the identity
(via set_identity) and switch to the INDICATORS form. -/
def App.on_identity_selected (app : App) (i : Identity) : App × Option String :=
  (app.set_identity i, getForm "INDICATORS")

/-- The values list built by IdentitySelection: a none sentinel (displayed as
NEW IDENTITY) followed by the identity objects of the bundle. -/
def identitySelectionValues (b : Bundle) : List (Option Identity) :=
  none :: (b.objects.filterMap SDO.asIdentity).map some

/-- IdentitySelection.get_identity: the check-marked entries are unpacked as
a single element; an empty selection falls through and yields none, and two
or more selected entries raise (a ValueError in Python). -/
def IdentitySelection.get_identity (checked : List (Option Identity)) :
    Except Unit (Option Identity) :=
  match checked with
  | [] => .ok none
  | [x] => .ok x
  | _ => .error ()

/-- Where IdentitySelection.actionHighlighted routes the workflow. -/
inductive Route where
  | newIdentityForm
  | selected (i : Identity)
deriving DecidableEq, Repr

/-- IdentitySelection.actionHighlighted: the highlighted entry is ignored;
the routing looks only at the check-marked selection.  none routes to the
NEW_IDENTITY form, an identity goes to on_identity_selected. -/
def IdentitySelection.actionHighlighted (highlighted : Option Identity)
    (checked : List (Option Identity)) : Except Unit Route :=
  match IdentitySelection.get_identity checked with
  | .error e => .error e
  | .ok none => .ok .newIdentityForm
  | .ok (some i) => .ok (.selected i)

/-- OpinionSelectOne.get_opinion: single-element unpacking of the selected
objects; anything but exactly one selected value raises. -/
def get_opinion (selected : List String) : Except Unit String :=
  match selected with
  | [v] => .ok v
  | _ => .error ()

/-- OpinionSelectOne.display_value: separators replaced by spaces, then
title-cased.  Used only when painting the menu. -/
def OpinionSelectOne.display_value (option : String) : String :=
  pyTitle (replaceChar '-' ' ' option)

/-- The widget state of IndicatorEvaluationForm when Save is pressed. -/
structure EvalForm where
  bundle : Bundle
  indicator : Indicator
  opinionSelected : List String
  explanationValue : String
deriving DecidableEq, Repr

/-- IndicatorEvaluationForm.on_ok: read the opinion value (which raises on an
empty selection, before anything else happens), build the Opinion - stix2
coerces the indicator object passed in object_refs to its id string, and
created_by_ref is not passed so it stays absent - append it to the bundle and
invoke the save callback.  The Bool records that on_save ran. -/
def EvalForm.on_ok (f : EvalForm) (created : Timestamp) (oid : String) :
    Except Unit (Bundle × Opinion × Bool) :=
  match get_opinion f.opinionSelected with
  | .error e => .error e
  | .ok v =>
    let op : Opinion :=
      { id := oid
        object_refs := [f.indicator.id]
        opinion := v
        explanation := f.explanationValue
        created := created
        created_by_ref := none }
    .ok ({ f.bundle with objects := f.bundle.objects ++ [SDO.opinion op] }, op, true)

/-!
File handling of judge_intel (lines 237-251): the save step and the default
output target.
-/

/-- A file handle: current content and current position. -/
structure FileHandle where
  content : String
  pos : Nat
deriving DecidableEq, Repr

/-- Reopening the input path for read-write, open(input.name, r+): same
content, position zero. -/
def openRW (f : FileHandle) : FileHandle :=
  { content := f.content, pos := 0 }

/-- A handle produced by click.File(w): opening for writing truncates, so the
prior content is gone and the position is zero. -/
def openW (_f : FileHandle) : FileHandle :=
  { content := "", pos := 0 }

/-- File truncate with no argument: cut the content at the current position. -/
def fileTruncate (f : FileHandle) : FileHandle :=
  { f with content := ⟨f.content.data.take f.pos⟩ }

/-- File write at the current position: overwrite in place and advance. -/
def fileWrite (f : FileHandle) (s : String) : FileHandle :=
  { content := ⟨f.content.data.take f.pos ++ s.data
        ++ f.content.data.drop (f.pos + s.data.length)⟩,
    pos := f.pos + s.data.length }

/-- save_bundle: serialize the bundle (the serialized text is a parameter,
the serializer being an external collaborator), truncate, write. -/
def save_bundle (serialized : String) (output : FileHandle) : FileHandle :=
  fileWrite (fileTruncate output) serialized

/-- judge_intel lines 238-239: when no output handle was given, the input
file itself is reopened for read-write. -/
def resolveOutput (input : FileHandle) : Option FileHandle → FileHandle
  | none => openRW input
  | some o => o

/-!
Review-side renderer (read_intel.py lines 94-113).
-/

/-- The fixed indent of the explanation block. -/
def indent : String := "    "

/-- read_intel.py lines 101-103: the joined per-line indented explanation,
with the indent prepended once more to the whole joined text. -/
def renderExplanation (e : String) : String :=
  indent ++ pyJoinNL ((pySplitlines e).map (fun line => indent ++ line))

/-- The list handed to buffer for one (creator, opinion) pair: header with
creator name and title-cased identity class, title-cased opinion value,
formatted timestamp, a blank line, the indented explanation, and two blank
lines as separator. -/
def renderBlock (creator : Identity) (op : Opinion) : List String :=
  [ "# " ++ creator.name ++ " (" ++ pyTitle creator.identity_class ++ ")",
    "  Opinion on effectiveness: " ++ pyTitle (replaceChar '-' ' ' op.opinion),
    "  Evaluated at: " ++ strftime op.created,
    "",
    renderExplanation op.explanation,
    "",
    "" ]

/-- The text of one block: each buffered entry occupies its own line in the
pager, so the block reads as the entries joined by newlines, newline
terminated. -/
def renderBlockText (creator : Identity) (op : Opinion) : String :=
  pyJoinNL (renderBlock creator op) ++ "\n"

/-- The whole report: the blocks of the (creator, opinion) pairs in index
order, concatenated. -/
def renderReport : List (Identity × Opinion) → String
  | [] => ""
  | p :: ps => renderBlockText p.1 p.2 ++ renderReport ps

/-- The display lines of the explanation part of a block: every explanation
line carries the fixed indent, and the first one carries it twice; an empty
explanation shows as a single line holding just the indent. -/
def explanationLines (e : String) : List String :=
  match pySplitlines e with
  | [] => [indent]
  | l :: ls => (indent ++ indent ++ l) :: ls.map (fun x => indent ++ x)

/-- The display lines of one block. -/
def blockLines (creator : Identity) (op : Opinion) : List String :=
  [ "# " ++ creator.name ++ " (" ++ pyTitle creator.identity_class ++ ")",
    "  Opinion on effectiveness: " ++ pyTitle (replaceChar '-' ' ' op.opinion),
    "  Evaluated at: " ++ strftime op.created,
    "" ] ++ explanationLines op.explanation ++ ["", ""]

/-!
Lemmas about the renderer text functions.
-/

theorem data_mk (l : List Char) : (String.mk l).data = l := rfl

theorem nmem_append {a : Char} {xs ys : List Char} (hx : a ∉ xs) (hy : a ∉ ys) :
    a ∉ xs ++ ys := fun h => (List.mem_append.mp h).elim (fun h1 => hx h1) (fun h2 => hy h2)

theorem digitChar_ne_newline (k : Nat) : digitChar k ≠ '\n' := by
  rcases Nat.lt_or_ge k 10 with h | h
  · interval_cases k <;> decide
  · have hk : digitChar k = '*' := List.getD_eq_default _ _ h
    rw [hk]; decide

theorem natDigits_ne_newline (n : Nat) : ∀ c ∈ natDigits n, c ≠ '\n' := by
  induction n using Nat.strong_induction_on with
  | _ n ih =>
    intro c hc
    rw [natDigits] at hc
    by_cases h : n < 10
    · rw [dif_pos h] at hc
      simp only [List.mem_singleton] at hc
      subst hc
      exact digitChar_ne_newline n
    · rw [dif_neg h] at hc
      rcases List.mem_append.mp hc with h1 | h2
      · exact ih (n / 10) (Nat.div_lt_self (by omega) (by decide)) c h1
      · simp only [List.mem_singleton] at h2
        subst h2
        exact digitChar_ne_newline _

theorem natToString_ne_newline (n : Nat) : '\n' ∉ (natToString n).data :=
  fun h => natDigits_ne_newline n '\n' h rfl

theorem pad2_ne_newline (n : Nat) : '\n' ∉ (pad2 n).data := by
  intro h
  unfold pad2 at h
  by_cases hn : n < 10
  · rw [if_pos hn, String.data_append] at h
    rcases List.mem_append.mp h with h1 | h2
    · exact absurd h1 (by decide)
    · exact natToString_ne_newline n h2
  · rw [if_neg hn] at h
    exact natToString_ne_newline n h

theorem padPrefix4_ne_newline (n : Nat) : '\n' ∉ (padPrefix4 n).data := by
  unfold padPrefix4
  split
  · decide
  · split
    · decide
    · split
      · decide
      · decide

theorem pad4_ne_newline (n : Nat) : '\n' ∉ (pad4 n).data := by
  intro h
  unfold pad4 at h
  rw [String.data_append] at h
  rcases List.mem_append.mp h with h1 | h2
  · exact padPrefix4_ne_newline n h1
  · exact natToString_ne_newline n h2

theorem strftime_ne_newline (t : Timestamp) : '\n' ∉ (strftime t).data := by
  intro h
  unfold strftime at h
  simp only [String.data_append, List.mem_append, or_assoc] at h
  rcases h with h | h | h | h | h | h | h | h | h | h | h <;>
    first
      | exact pad4_ne_newline t.year h
      | exact pad2_ne_newline _ h
      | exact absurd h (by decide)

theorem splitlinesL_cons_newline (rest : List Char) :
    splitlinesL ('\n' :: rest) = [] :: splitlinesL rest := by
  simp [splitlinesL]

theorem splitlinesL_ne_newline : ∀ cs : List Char, ∀ l ∈ splitlinesL cs, '\n' ∉ l := by
  intro cs
  induction cs with
  | nil => intro l hl; simp [splitlinesL] at hl
  | cons c rest ih =>
    intro l hl
    by_cases hc : c = '\n'
    · subst hc
      rw [splitlinesL_cons_newline] at hl
      rcases List.mem_cons.mp hl with rfl | hl
      · simp
      · exact ih l hl
    · simp only [splitlinesL, if_neg hc] at hl
      cases hrest : splitlinesL rest with
      | nil =>
        rw [hrest] at hl
        simp only [List.mem_singleton] at hl
        subst hl
        intro hmem
        rcases List.mem_cons.mp hmem with h1 | h1
        · exact hc h1.symm
        · simp at h1
      | cons l0 ls =>
        rw [hrest] at hl
        rcases List.mem_cons.mp hl with rfl | hl
        · intro hmem
          rcases List.mem_cons.mp hmem with h1 | h1
          · exact hc h1.symm
          · exact ih l0 (by rw [hrest]; exact List.mem_cons_self _ _) h1
        · exact ih l (by rw [hrest]; exact List.mem_cons_of_mem _ hl)

theorem splitlinesL_append_newline (as bs : List Char) (h : '\n' ∉ as) :
    splitlinesL (as ++ '\n' :: bs) = as :: splitlinesL bs := by
  induction as with
  | nil => simp [splitlinesL]
  | cons c cs ih =>
    have hc : ¬ (c = '\n') := by
      intro hq
      exact h (by rw [hq]; exact List.mem_cons_self _ _)
    have h' : '\n' ∉ cs := fun hq => h (List.mem_cons_of_mem _ hq)
    simp only [List.cons_append, splitlinesL, if_neg hc, List.append_eq]
    rw [ih h']

theorem splitlinesL_of_ne_newline (as : List Char) (h : '\n' ∉ as) (hne : as ≠ []) :
    splitlinesL as = [as] := by
  induction as with
  | nil => exact absurd rfl hne
  | cons c cs ih =>
    have hc : ¬ (c = '\n') := by
      intro hq
      exact h (by rw [hq]; exact List.mem_cons_self _ _)
    have h' : '\n' ∉ cs := fun hq => h (List.mem_cons_of_mem _ hq)
    simp only [splitlinesL, if_neg hc]
    by_cases hcs : cs = []
    · subst hcs
      simp [splitlinesL]
    · rw [ih h' hcs]

theorem splitlinesL_joinNLc (ls : List (List Char)) (rest : List Char)
    (h : ∀ l ∈ ls, '\n' ∉ l) (hne : ls ≠ []) :
    splitlinesL (joinNLc ls ++ '\n' :: rest) = ls ++ splitlinesL rest := by
  induction ls with
  | nil => exact absurd rfl hne
  | cons x xs ih =>
    cases xs with
    | nil =>
      simp only [joinNLc]
      rw [splitlinesL_append_newline x rest (h x (List.mem_cons_self _ _))]
      rfl
    | cons y ys =>
      have hx : '\n' ∉ x := h x (List.mem_cons_self _ _)
      have h' : ∀ l ∈ y :: ys, '\n' ∉ l := fun l hl => h l (List.mem_cons_of_mem _ hl)
      simp only [joinNLc]
      rw [List.append_assoc, List.cons_append]
      rw [splitlinesL_append_newline x _ hx]
      rw [ih h' (by simp)]
      rfl

theorem renderExplanation_data (e : String) :
    (renderExplanation e).data
      = indent.data ++ joinNLc ((splitlinesL e.data).map (fun l => indent.data ++ l)) := by
  simp only [renderExplanation, pyJoinNL, pySplitlines, String.data_append, data_mk,
    List.map_map]
  have hF : (String.data ∘ (fun line => indent ++ line) ∘ fun l => String.mk l)
      = fun l : List Char => indent.data ++ l := by
    funext l
    simp [Function.comp, String.data_append, data_mk]
  rw [hF]

theorem splitlinesL_renderExplanation (e : String) (tail : List Char) :
    splitlinesL ((renderExplanation e).data ++ '\n' :: tail)
      = (explanationLines e).map String.data ++ splitlinesL tail := by
  rw [renderExplanation_data]
  have hnl : ∀ l ∈ splitlinesL e.data, '\n' ∉ l := splitlinesL_ne_newline e.data
  have hind : '\n' ∉ indent.data := by decide
  cases hsp : splitlinesL e.data with
  | nil =>
    simp only [hsp, List.map_nil, joinNLc, List.append_nil]
    rw [splitlinesL_append_newline _ _ hind]
    simp [explanationLines, pySplitlines, hsp]
  | cons l ls =>
    have hl : '\n' ∉ l := hnl l (hsp ▸ List.mem_cons_self _ _)
    have hls : ∀ x ∈ ls, '\n' ∉ x := fun x hx => hnl x (hsp ▸ List.mem_cons_of_mem _ hx)
    cases ls with
    | nil =>
      simp only [hsp, List.map_cons, List.map_nil, joinNLc]
      rw [← List.append_assoc]
      rw [splitlinesL_append_newline _ _ (nmem_append (nmem_append hind hind) hl)]
      simp [explanationLines, pySplitlines, hsp, String.data_append, data_mk,
        List.append_assoc]
    | cons y ys =>
      simp only [hsp, List.map_cons, joinNLc]
      have key : ∀ A B C D : List Char,
          A ++ (B ++ '\n' :: C) ++ '\n' :: D = (A ++ B) ++ '\n' :: (C ++ '\n' :: D) := by
        intro A B C D
        simp [List.append_assoc]
      rw [key]
      rw [splitlinesL_append_newline _ _ (nmem_append hind (nmem_append hind hl))]
      rw [splitlinesL_joinNLc _ _ ?hfree (by simp)]
      case hfree =>
        intro x hx
        rcases List.mem_cons.mp hx with rfl | hx
        · exact nmem_append hind (hls y (List.mem_cons_self _ _))
        · rcases List.mem_map.mp hx with ⟨z, hz, rfl⟩
          exact nmem_append hind (hls z (List.mem_cons_of_mem _ hz))
      simp [explanationLines, pySplitlines, hsp, String.data_append, data_mk,
        List.map_map, Function.comp, List.append_assoc]

theorem splitlinesL_blockText (c : Identity) (o : Opinion) (tail : List Char)
    (hname : '\n' ∉ c.name.data)
    (hclass : '\n' ∉ (pyTitle c.identity_class).data)
    (hop : '\n' ∉ (pyTitle (replaceChar '-' ' ' o.opinion)).data) :
    splitlinesL ((renderBlockText c o).data ++ tail)
      = (blockLines c o).map String.data ++ splitlinesL tail := by
  have hd : (renderBlockText c o).data ++ tail
      = ("# " ++ c.name ++ " (" ++ pyTitle c.identity_class ++ ")").data
          ++ '\n' :: (("  Opinion on effectiveness: "
              ++ pyTitle (replaceChar '-' ' ' o.opinion)).data
          ++ '\n' :: (("  Evaluated at: " ++ strftime o.created).data
          ++ '\n' :: '\n' :: ((renderExplanation o.explanation).data
          ++ '\n' :: '\n' :: '\n' :: tail))) := by
    simp [renderBlockText, pyJoinNL, renderBlock, joinNLc, String.data_append, data_mk,
      List.append_assoc]
  rw [hd]
  have h1 : '\n' ∉ ("# " ++ c.name ++ " (" ++ pyTitle c.identity_class ++ ")").data := by
    simp only [String.data_append]
    exact nmem_append (nmem_append (nmem_append (nmem_append (by decide) hname)
      (by decide)) hclass) (by decide)
  have h2 : '\n' ∉ ("  Opinion on effectiveness: "
      ++ pyTitle (replaceChar '-' ' ' o.opinion)).data := by
    simp only [String.data_append]
    exact nmem_append (by decide) hop
  have h3 : '\n' ∉ ("  Evaluated at: " ++ strftime o.created).data := by
    simp only [String.data_append]
    exact nmem_append (by decide) (strftime_ne_newline o.created)
  rw [splitlinesL_append_newline _ _ h1]
  rw [splitlinesL_append_newline _ _ h2]
  rw [splitlinesL_append_newline _ _ h3]
  rw [splitlinesL_cons_newline]
  rw [splitlinesL_renderExplanation]
  rw [splitlinesL_cons_newline, splitlinesL_cons_newline]
  simp [blockLines, List.append_assoc]

theorem pySplitlines_renderReport (ps : List (Identity × Opinion))
    (h : ∀ p ∈ ps, '\n' ∉ p.1.name.data
        ∧ '\n' ∉ (pyTitle p.1.identity_class).data
        ∧ '\n' ∉ (pyTitle (replaceChar '-' ' ' p.2.opinion)).data) :
    pySplitlines (renderReport ps) = ps.flatMap (fun p => blockLines p.1 p.2) := by
  induction ps with
  | nil => rfl
  | cons p ps ih =>
    have hp := h p (List.mem_cons_self _ _)
    have h' : ∀ q ∈ ps, '\n' ∉ q.1.name.data
        ∧ '\n' ∉ (pyTitle q.1.identity_class).data
        ∧ '\n' ∉ (pyTitle (replaceChar '-' ' ' q.2.opinion)).data :=
      fun q hq => h q (List.mem_cons_of_mem _ hq)
    have hdata : (renderReport (p :: ps)).data
        = (renderBlockText p.1 p.2).data ++ (renderReport ps).data := by
      simp [renderReport, String.data_append]
    unfold pySplitlines
    rw [hdata, splitlinesL_blockText _ _ _ hp.1 hp.2.1 hp.2.2]
    rw [List.map_append, List.map_map]
    have hmk : ((fun l => String.mk l) ∘ String.data) = id := by
      funext s
      rfl
    rw [hmk, List.map_id]
    rw [show ((splitlinesL (renderReport ps).data).map fun l => String.mk l)
        = pySplitlines (renderReport ps) from rfl]
    rw [ih h']
    simp

theorem mk_data (s : String) : String.mk s.data = s := rfl

/-!
Concrete scenario data used by the counterexample and bug-evaluation
theorems.
-/

/-- An identity present in the sample bundle. -/
def alice : Identity :=
  { id := "identity--a1", name := "Alice", identity_class := "individual",
    contact_information := "alice@example.com" }

/-- An indicator present in the sample bundle. -/
def ind1 : Indicator :=
  { id := "indicator--i1", name := "Bad URL" }

/-- A sample creation timestamp. -/
def t0 : Timestamp :=
  { year := 2026, month := 1, day := 2, hour := 3, minute := 4, second := 5 }

/-- A sample bundle holding one identity and one indicator. -/
def bundle0 : Bundle :=
  { id := "bundle--b1", objects := [SDO.identity alice, SDO.indicator ind1] }

/-- The application state right after startup on bundle0. -/
def app0 : App := { bundle := bundle0, identity := none }

/-- The Opinion that on_ok builds in the sample session. -/
def opinionC1 : Opinion :=
  { id := "opinion--o1", object_refs := [ind1.id], opinion := "agree",
    explanation := "works well", created := t0, created_by_ref := none }

/-- The bundle after the sample session appended its Opinion. -/
def bundleAfterC1 : Bundle :=
  { id := bundle0.id,
    objects := (app0.set_identity alice).bundle.objects ++ [SDO.opinion opinionC1] }

/-- A sample opinion with a two-line explanation, for the renderer. -/
def opW : Opinion :=
  { id := "opinion--w", object_refs := [ind1.id], opinion := "strongly-agree",
    explanation := "line one\nline two", created := t0,
    created_by_ref := some alice.id }

/-!
The claim theorems.
-/

/-- C1: in a session that resolved identity alice at the start, the Opinion
constructed on confirm carries no created_by_ref at all - the constructor in
IndicatorEvaluationForm.on_ok is never given the session identity - so the
review side creator_of cannot resolve a creator for it.  This refutes the
claim that created_by_ref holds the resolved Identity identifier. -/
theorem c1_opinion_has_no_creator_ref :
    (app0.set_identity alice).identity = some alice
    ∧ EvalForm.on_ok
        { bundle := (app0.set_identity alice).bundle, indicator := ind1,
          opinionSelected := ["agree"], explanationValue := "works well" }
        t0 "opinion--o1"
      = .ok (bundleAfterC1, opinionC1, true)
    ∧ opinionC1.created_by_ref = none
    ∧ opinionC1.created_by_ref ≠ some alice.id
    ∧ creator_of bundleAfterC1 opinionC1 = none := by
  refine ⟨rfl, rfl, rfl, by decide, rfl⟩

/-- C2: membership in the review query result is exactly membership of an
opinion object in the bundle whose object_refs contain the identifier of the
chosen indicator: no false positives and no false negatives. -/
theorem opinionsFor_mem_iff (b : Bundle) (ind : Indicator) (o : Opinion) :
    o ∈ opinionsFor b ind ↔ SDO.opinion o ∈ b.objects ∧ ind.id ∈ o.object_refs := by
  rw [opinionsFor, (sortDesc_perm _).mem_iff]
  unfold queryOpinions
  rw [List.mem_filter]
  constructor
  · rintro ⟨hmem, hc⟩
    rcases List.mem_filterMap.mp hmem with ⟨s, hs, hso⟩
    rw [asOpinion_eq_some] at hso
    subst hso
    exact ⟨hs, by simpa using hc⟩
  · rintro ⟨hs, hr⟩
    refine ⟨List.mem_filterMap.mpr ⟨SDO.opinion o, hs, ?_⟩, ?_⟩
    · rw [asOpinion_eq_some]
    · simpa using hr

/-- C3: the sequence returned by the review query is non-increasing in the
creation timestamp (each element is greater or equal, in datetime order,
than every later one), and for every fixed timestamp the elements carrying
it appear exactly as in the pre-sort bundle-order query (stability); the
sorted sequence is a permutation of the query result. -/
theorem opinionsFor_sorted_stable (b : Bundle) (ind : Indicator) :
    (opinionsFor b ind).Pairwise descRel
    ∧ (∀ t : Timestamp,
        (opinionsFor b ind).filter (fun o => decide (o.created = t))
          = (queryOpinions b ind).filter (fun o => decide (o.created = t)))
    ∧ (opinionsFor b ind).Perm (queryOpinions b ind) :=
  ⟨sortDesc_pairwise _, fun t => sortDesc_filter t _, sortDesc_perm _⟩

/-- C4: selecting the already-present identity alice from the bundle runs
on_identity_selected, whose set_identity appends alice to the object
collection again, so the bundle is changed and the unique-identifier
invariant is broken.  This refutes the claim that selecting an existing
identity leaves the bundle unchanged. -/
theorem c4_existing_identity_selection_duplicates :
    IdentitySelection.actionHighlighted (some alice) [some alice]
        = .ok (Route.selected alice)
    ∧ App.on_identity_selected app0 alice
        = (app0.set_identity alice, some "INDICATORS")
    ∧ (app0.set_identity alice).bundle.objects
        = bundle0.objects ++ [SDO.identity alice]
    ∧ ¬ (app0.set_identity alice).bundle.uniqueIds := by
  refine ⟨rfl, ?_, rfl, by decide⟩
  decide

/-- C5: both cancel handlers pass the form id IDENTITIES to switchForm, but
no form is registered under that id (the identity-selection form is
registered as MAIN), so neither cancel reaches the identity-selection
screen: the lookup faults.  By contrast the evaluation-form cancel target
MAIN does resolve.  This refutes the claim that both cancels return to the
identity-selection state without faulting. -/
theorem c5_cancel_targets_unregistered :
    getForm identityEntryCancelTarget = none
    ∧ getForm indicatorSelectionCancelTarget = none
    ∧ identityEntryCancelTarget ∉ registeredFormIds
    ∧ getForm evaluationCancelTarget = some "MAIN" := by
  refine ⟨?_, ?_, ?_, ?_⟩ <;> decide

/-- C6: on confirm with one selected opinion value v, on_ok builds the
Opinion whose object_refs hold exactly the id of the previously selected
indicator, whose opinion field is v verbatim and whose explanation is the
entered text unchanged, appends it to the bundle and invokes the save
callback; the separator-replaced title-cased form appears only in
display_value. -/
theorem on_ok_constructs_opinion (b : Bundle) (ind : Indicator) (v e : String)
    (t : Timestamp) (oid : String) :
    EvalForm.on_ok
        { bundle := b, indicator := ind, opinionSelected := [v],
          explanationValue := e } t oid
      = .ok ({ b with objects := b.objects
            ++ [SDO.opinion
                  { id := oid, object_refs := [ind.id], opinion := v,
                    explanation := e, created := t, created_by_ref := none }] },
          { id := oid, object_refs := [ind.id], opinion := v, explanation := e,
            created := t, created_by_ref := none }, true)
    ∧ OpinionSelectOne.display_value "strongly-agree" = "Strongly Agree" := by
  refine ⟨rfl, by decide⟩

/-- C7: the save step truncates the output handle at position zero and
writes the serialized text, so the resulting content is exactly the
serialized text whatever the prior content was; and when no output was
given, the output handle is the input file reopened for read-write. -/
theorem save_bundle_replaces_content (input prior : FileHandle) (s : String) :
    (save_bundle s (resolveOutput input none)).content = s
    ∧ resolveOutput input none = openRW input
    ∧ (save_bundle s (resolveOutput input (some (openW prior)))).content = s := by
  refine ⟨?_, rfl, ?_⟩ <;>
    simp [save_bundle, resolveOutput, openRW, openW, fileTruncate, fileWrite, mk_data]

/-- C8 counterexample: for the explanation text with lines a and b the
renderer indents the first line twice (eight spaces) and the second once
(four spaces), so the output lines are not the input lines each prefixed by
the single fixed indent. -/
theorem c8_first_line_double_indent_cex :
    renderExplanation "a\nb" = "        a\n    b"
    ∧ pySplitlines (renderExplanation "a\nb") = ["        a", "    b"]
    ∧ pySplitlines (renderExplanation "a\nb")
        ≠ (pySplitlines "a\nb").map (fun line => indent ++ line) := by
  refine ⟨?_, ?_, ?_⟩ <;> decide

/-- C8 amended: the rendered report decomposes, block after block in index
order, into the header line with the creator name and title-cased identity
class, the title-cased opinion line, the timestamp line, a blank line, the
explanation lines each prefixed by the fixed indent with the first line
carrying the indent twice, and two blank separator lines; rendering is a
pure function of the input sequence, so rendering twice is byte-identical. -/
theorem renderReport_lines (ps : List (Identity × Opinion))
    (h : ∀ p ∈ ps, '\n' ∉ p.1.name.data
        ∧ '\n' ∉ (pyTitle p.1.identity_class).data
        ∧ '\n' ∉ (pyTitle (replaceChar '-' ' ' p.2.opinion)).data) :
    pySplitlines (renderReport ps) = ps.flatMap (fun p => blockLines p.1 p.2)
    ∧ renderReport ps = renderReport ps :=
  ⟨pySplitlines_renderReport ps h, rfl⟩

/-- Witness for the amended C8 theorem at a concrete one-block report with a
two-line explanation. -/
theorem renderReport_lines_witness :
    (∀ p ∈ [(alice, opW)], '\n' ∉ p.1.name.data
        ∧ '\n' ∉ (pyTitle p.1.identity_class).data
        ∧ '\n' ∉ (pyTitle (replaceChar '-' ' ' p.2.opinion)).data)
    ∧ pySplitlines (renderReport [(alice, opW)])
        = [(alice, opW)].flatMap (fun p => blockLines p.1 p.2) :=
  ⟨by decide, (renderReport_lines [(alice, opW)] (by decide)).1⟩

/-- C9: confirming with no opinion value selected makes the single-element
unpacking in get_opinion fail, so on_ok raises before any Opinion is
constructed: no bundle change and no save callback. -/
theorem on_ok_empty_selection_raises (b : Bundle) (ind : Indicator) (e : String)
    (t : Timestamp) (oid : String) :
    get_opinion [] = .error ()
    ∧ EvalForm.on_ok
        { bundle := b, indicator := ind, opinionSelected := [],
          explanationValue := e } t oid = .error () :=
  ⟨rfl, rfl⟩

/-- C10: the identity-selection value list starts with the none sentinel
(the NEW IDENTITY row), and pressing enter with nothing check-marked makes
get_identity yield none, routing to the NEW_IDENTITY form no matter which
identity row was highlighted. -/
theorem actionHighlighted_unchecked_routes_new_identity
    (b : Bundle) (highlighted : Option Identity) :
    (identitySelectionValues b).head? = some none
    ∧ IdentitySelection.get_identity [] = .ok none
    ∧ IdentitySelection.actionHighlighted highlighted [] = .ok Route.newIdentityForm :=
  ⟨rfl, rfl, rfl⟩

end CtiStix
